import Mathlib

/-!
Shallow embedding of `crates/consensus/beacon/src/engine/prune.rs`:
the `EnginePruneController` state machine that arbitrates a single
background pruning run from inside the engine's poll loop.

External collaborators are modelled as oracle inputs supplied to each
`poll` call:
  * `Pruner::check_tip(cx) -> Option<BlockNumber>` is the `tip` field of
    the per-call environment (only consulted when the controller is idle
    and holds the pruner);
  * polling the `oneshot::Receiver<PrunerWithResult>` held in
    `PrunerState::Running` yields the `recv` field: still pending, a
    delivered `(pruner, result)` pair, or `Err(RecvError)` for a closed
    channel;
  * `oneshot::channel()` returns a fresh channel whose identity is the
    `freshRx` field;
  * `TaskSpawner::spawn_critical_blocking` is modelled as an explicit
    effect output: the spawned task description produced by a `poll` call.

The `loop` in `EnginePruneController::poll` is embedded as a fuel-indexed
recursion (`pollLoop`); within one `poll` call the oracle answers are
fixed, so an iteration that makes no progress repeats identically and the
loop's semantics is fully captured by fuel plus a fuel-irrelevance lemma.
-/

namespace EnginePrune

/-- Block numbers, `reth_primitives::BlockNumber`. -/
abbrev BlockNumber := Nat

/-- The opaque pruning capability (`reth_prune::Pruner`), identified by an
abstract id so that ownership transfer can be tracked. -/
structure Pruner where
  id : Nat
deriving DecidableEq, Repr

/-- Opaque domain error, `reth_prune::PrunerError`. -/
inductive PrunerError where
  | custom (code : Nat)
deriving DecidableEq, Repr

/-- Outcome of a prune run, `Result<(), PrunerError>`. -/
inductive PrunerResult where
  | ok
  | err (e : PrunerError)
deriving DecidableEq, Repr

/-- Readiness, `std::task::Poll`. -/
inductive Poll (α : Type) where
  | pending
  | ready (a : α)
deriving DecidableEq, Repr

/-- The event type emitted by the controller (`EnginePruneEvent`). -/
inductive EnginePruneEvent where
  | notReady
  | started (tip : BlockNumber)
  | finished (result : PrunerResult)
  | taskDropped
deriving DecidableEq, Repr

/-- Source `PrunerState`: `Idle(Option<Pruner>)` or
`Running(oneshot::Receiver<PrunerWithResult>)`; the receiver is identified
by the id of its channel. -/
inductive PrunerState where
  | idle (pruner : Option Pruner)
  | running (rx : Nat)
deriving DecidableEq, Repr

/-- Source `PrunerState::is_idle`: `matches!(self, PrunerState::Idle(_))`. -/
def PrunerState.is_idle : PrunerState → Bool
  | .idle _ => true
  | .running _ => false

/-- Source `EnginePruneController::new`: the controller starts as
`Idle(Some(pruner))`.  The task spawner is modelled as an effect output of
`poll`, so the controller state is just the `pruner_state` field. -/
def EnginePruneController.new (pruner : Pruner) : PrunerState :=
  .idle (some pruner)

/-- Source `EnginePruneController::is_pruner_idle`. -/
def EnginePruneController.is_pruner_idle (s : PrunerState) : Bool :=
  s.is_idle

/-- What polling the oneshot receiver held in `Running` yields this call:
still pending, `Ok((pruner, result))`, or `Err(RecvError)` (channel
closed without a value). -/
inductive RecvPoll where
  | pending
  | ok (pruner : Pruner) (result : PrunerResult)
  | closed
deriving DecidableEq, Repr

/-- Oracle inputs for one `poll` call: the answer `Pruner::check_tip`
would give, the id of the channel `oneshot::channel()` would create, and
the answer polling the current receiver would give. -/
structure PollEnv where
  tip : Option BlockNumber
  freshRx : Nat
  recv : RecvPoll
deriving DecidableEq, Repr

/-- The unit of work handed to
`pruner_task_spawner.spawn_critical_blocking("pruner task", ...)`: it owns
the pruner and the tip, and holds the sender side of the fresh channel. -/
structure SpawnedTask where
  name : String
  critical : Bool
  pruner : Pruner
  tip : BlockNumber
  tx : Nat
deriving DecidableEq, Repr

/-- A message sent over a oneshot channel: the channel id and the
`PrunerWithResult` payload. -/
structure SentMsg where
  tx : Nat
  payload : Pruner × PrunerResult
deriving DecidableEq, Repr

/-- The body of the spawned task:
`let result = pruner.run_as_fut(tip_block_number).await; let _ = tx.send(result)`.
`run_as_fut` is external, supplied as an oracle taking the pruner and the
tip and returning the `PrunerWithResult` pair. -/
def taskBody (t : SpawnedTask) (runAsFut : Pruner → BlockNumber → Pruner × PrunerResult) :
    SentMsg :=
  ⟨t.tx, runAsFut t.pruner t.tip⟩

/-- Source `EnginePruneController::poll_pruner` (without the spawn path): on
`Idle` return `Pending`; on `Running` poll the receiver: pending
propagates via `ready!`, `Ok((pruner, result))` sets the state to
`Idle(Some(pruner))` and yields `Finished { result }`, `Err(_)` yields
`TaskDropped` with no state write. -/
def pollPruner : PrunerState → RecvPoll → Poll EnginePruneEvent × PrunerState
  | s@(.idle _), _ => (.pending, s)
  | s@(.running _), .pending => (.pending, s)
  | .running _, .ok pruner result => (.ready (.finished result), .idle (some pruner))
  | s@(.running _), .closed => (.ready .taskDropped, s)

/-- Source `EnginePruneController::try_spawn_pruner`: on `Idle`, `take()` the
pruner (if the slot is empty the `?` returns `None` with the slot still
empty); check the tip; on `Some(tip)` create a oneshot channel, spawn the
pruner task and go `Running(rx)` returning `Started(tip)`; on `None` put
the pruner back and return `NotReady`.  On `Running` do nothing. -/
def trySpawnPruner : PrunerState → Option BlockNumber → Nat →
    PrunerState × Option EnginePruneEvent × Option SpawnedTask
  | .idle none, _, _ => (.idle none, none, none)
  | .idle (some pruner), tipRes, freshRx =>
    match tipRes with
    | some tipBlockNumber =>
      (.running freshRx,
       some (.started tipBlockNumber),
       some ⟨"pruner task", true, pruner, tipBlockNumber, freshRx⟩)
    | none => (.idle (some pruner), some .notReady, none)
  | s@(.running _), _, _ => (s, none, none)

/-- The `loop` inside `EnginePruneController::poll`, with explicit fuel:
each iteration calls `poll_pruner`; a `Ready` event returns it, otherwise
if the state is not idle the call returns `Pending`, else the loop
repeats.  `none` means the fuel ran out (the source loop would spin). -/
def pollLoop : Nat → PrunerState → RecvPoll → Option (Poll EnginePruneEvent × PrunerState)
  | 0, _, _ => none
  | fuel + 1, s, recv =>
    match pollPruner s recv with
    | (.ready ev, s') => some (.ready ev, s')
    | (.pending, s') =>
      if s'.is_idle then pollLoop fuel s' recv
      else some (.pending, s')

/-- Source `EnginePruneController::poll`: first `try_spawn_pruner`; if it
produced an event, return it `Ready`; otherwise run the loop.  The result
carries the next state and the task spawned by this call, if any. -/
def poll (fuel : Nat) (s : PrunerState) (env : PollEnv) :
    Option (Poll EnginePruneEvent × PrunerState × Option SpawnedTask) :=
  match trySpawnPruner s env.tip env.freshRx with
  | (s', some ev, task) => some (.ready ev, s', task)
  | (s', none, _) =>
    (pollLoop fuel s' env.recv).map fun r => (r.1, r.2, none)

/-- A sequence of `poll` calls: for each environment in the list, one
`poll`; records the event and the post-state of every call.  `none` if
some call's loop fuel ran out. -/
def runTrace (fuel : Nat) : PrunerState → List PollEnv →
    Option (List (Poll EnginePruneEvent × PrunerState))
  | _, [] => some []
  | s, env :: envs =>
    match poll fuel s env with
    | none => none
    | some (ev, s', _) => (runTrace fuel s' envs).map fun tr => (ev, s') :: tr

/-- The states reachable from construction by `poll` steps (with any
oracle answers and any sufficient fuel). -/
inductive Reachable : PrunerState → Prop
  | init (pruner : Pruner) : Reachable (EnginePruneController.new pruner)
  | step {s : PrunerState} {env : PollEnv} {n : Nat}
      {ev : Poll EnginePruneEvent} {s' : PrunerState} {task : Option SpawnedTask} :
      Reachable s → poll (n + 1) s env = some (ev, s', task) → Reachable s'

/-- Spec automaton for the idle flag: true after `NotReady`/`Finished`,
false after `Started`/`TaskDropped`, unchanged on `Pending`. -/
def idleAfterSpec : Bool → Poll EnginePruneEvent → Bool
  | b, .pending => b
  | _, .ready .notReady => true
  | _, .ready (.started _) => false
  | _, .ready (.finished _) => true
  | _, .ready .taskDropped => false

/-- Fold of `idleAfterSpec` over an event list, recording the flag after
every event. -/
def specFlags : Bool → List (Poll EnginePruneEvent) → List Bool
  | _, [] => []
  | b, ev :: evs => idleAfterSpec b ev :: specFlags (idleAfterSpec b ev) evs

/-- Whether a poll outcome is a `Started` event. -/
def isStartedEv : Poll EnginePruneEvent → Bool
  | .ready (.started _) => true
  | _ => false

/-- Whether a poll outcome ends a run: `Finished` or `TaskDropped`. -/
def isRunEndEv : Poll EnginePruneEvent → Bool
  | .ready (.finished _) => true
  | .ready .taskDropped => true
  | _ => false

/-- Scan check that no `Started` occurs while a run is already open, i.e.
no two `Started` events without an intervening `Finished`/`TaskDropped`. -/
def noTwoStartedAux : Bool → List (Poll EnginePruneEvent) → Bool
  | _, [] => true
  | inRun, ev :: evs =>
    if isStartedEv ev then !inRun && noTwoStartedAux true evs
    else if isRunEndEv ev then noTwoStartedAux false evs
    else noTwoStartedAux inRun evs

/-- Scan check that no `Finished` occurs after a `Finished` without an
intervening `Started`: each completed run reports `Finished` once. -/
def noRefinishAux : Bool → List (Poll EnginePruneEvent) → Bool
  | _, [] => true
  | seen, ev :: evs =>
    match ev with
    | .ready (.finished _) => !seen && noRefinishAux true evs
    | .ready (.started _) => noRefinishAux false evs
    | _ => noRefinishAux seen evs

theorem pollLoop_idle (n : Nat) (o : Option Pruner) (recv : RecvPoll) :
    pollLoop n (.idle o) recv = none := by
  induction n with
  | zero => rfl
  | succ n ih => simpa [pollLoop, pollPruner, PrunerState.is_idle] using ih

theorem poll_idle_none (fuel : Nat) (env : PollEnv) :
    poll fuel (.idle none) env = none := by
  simp [poll, trySpawnPruner, pollLoop_idle]

theorem poll_idle_tip (fuel : Nat) (p : Pruner) (t : BlockNumber) (fr : Nat)
    (recv : RecvPoll) :
    poll fuel (.idle (some p)) ⟨some t, fr, recv⟩ =
      some (.ready (.started t), .running fr, some ⟨"pruner task", true, p, t, fr⟩) := rfl

theorem poll_idle_noTip (fuel : Nat) (p : Pruner) (fr : Nat) (recv : RecvPoll) :
    poll fuel (.idle (some p)) ⟨none, fr, recv⟩ =
      some (.ready .notReady, .idle (some p), none) := rfl

theorem poll_running_pending (n rx : Nat) (tip : Option BlockNumber) (fr : Nat) :
    poll (n + 1) (.running rx) ⟨tip, fr, .pending⟩ =
      some (.pending, .running rx, none) := rfl

theorem poll_running_ok (n rx : Nat) (tip : Option BlockNumber) (fr : Nat)
    (p : Pruner) (r : PrunerResult) :
    poll (n + 1) (.running rx) ⟨tip, fr, .ok p r⟩ =
      some (.ready (.finished r), .idle (some p), none) := rfl

theorem poll_running_closed (n rx : Nat) (tip : Option BlockNumber) (fr : Nat) :
    poll (n + 1) (.running rx) ⟨tip, fr, .closed⟩ =
      some (.ready .taskDropped, .running rx, none) := rfl

/-- Master step inversion: every successful `poll` step is one of the five
transitions of the state machine. -/
theorem poll_shape {n : Nat} {s : PrunerState} {env : PollEnv}
    {ev : Poll EnginePruneEvent} {s' : PrunerState} {task : Option SpawnedTask}
    (h : poll (n + 1) s env = some (ev, s', task)) :
    (∃ p t, s = .idle (some p) ∧ env.tip = some t ∧
      ev = .ready (.started t) ∧ s' = .running env.freshRx)
    ∨ (∃ p, s = .idle (some p) ∧ env.tip = none ∧ ev = .ready .notReady ∧ s' = s)
    ∨ (∃ rx, s = .running rx ∧ env.recv = .pending ∧ ev = .pending ∧ s' = s)
    ∨ (∃ rx p r, s = .running rx ∧ env.recv = .ok p r ∧
      ev = .ready (.finished r) ∧ s' = .idle (some p))
    ∨ (∃ rx, s = .running rx ∧ env.recv = .closed ∧ ev = .ready .taskDropped ∧ s' = s) := by
  obtain ⟨tip, fr, recv⟩ := env
  cases s with
  | idle o =>
    cases o with
    | none => rw [poll_idle_none] at h; exact absurd h (by simp)
    | some p =>
      cases tip with
      | some t =>
        rw [poll_idle_tip] at h
        simp only [Option.some.injEq, Prod.mk.injEq] at h
        exact Or.inl ⟨p, t, rfl, rfl, h.1.symm, h.2.1.symm⟩
      | none =>
        rw [poll_idle_noTip] at h
        simp only [Option.some.injEq, Prod.mk.injEq] at h
        exact Or.inr (Or.inl ⟨p, rfl, rfl, h.1.symm, h.2.1.symm⟩)
  | running rx =>
    cases recv with
    | pending =>
      rw [poll_running_pending] at h
      simp only [Option.some.injEq, Prod.mk.injEq] at h
      exact Or.inr (Or.inr (Or.inl ⟨rx, rfl, rfl, h.1.symm, h.2.1.symm⟩))
    | ok p r =>
      rw [poll_running_ok] at h
      simp only [Option.some.injEq, Prod.mk.injEq] at h
      exact Or.inr (Or.inr (Or.inr (Or.inl ⟨rx, p, r, rfl, rfl, h.1.symm, h.2.1.symm⟩)))
    | closed =>
      rw [poll_running_closed] at h
      simp only [Option.some.injEq, Prod.mk.injEq] at h
      exact Or.inr (Or.inr (Or.inr (Or.inr ⟨rx, rfl, rfl, h.1.symm, h.2.1.symm⟩)))

/-- Every state reachable from construction holds the pruner when idle:
the empty `Idle(None)` slot is never observable at an operation boundary. -/
theorem reachable_shape {s : PrunerState} (h : Reachable s) :
    (∃ p, s = .idle (some p)) ∨ (∃ rx, s = .running rx) := by
  induction h with
  | init pruner => exact Or.inl ⟨pruner, rfl⟩
  | step _ hstep _ =>
    rcases poll_shape hstep with
      ⟨p, t, hs, _, _, hs'⟩ | ⟨p, hs, _, _, hs'⟩ | ⟨rx, hs, _, _, hs'⟩
      | ⟨rx, p, r, _, _, _, hs'⟩ | ⟨rx, hs, _, _, hs'⟩
    · exact Or.inr ⟨_, hs'⟩
    · exact Or.inl ⟨p, hs' ▸ hs⟩
    · exact Or.inr ⟨rx, hs' ▸ hs⟩
    · exact Or.inl ⟨p, hs'⟩
    · exact Or.inr ⟨rx, hs' ▸ hs⟩

theorem poll_fuel_irrel (n m : Nat) (s : PrunerState) (env : PollEnv) :
    poll (n + 1) s env = poll (m + 1) s env := by
  obtain ⟨tip, fr, recv⟩ := env
  cases s with
  | idle o =>
    cases o with
    | none => rw [poll_idle_none, poll_idle_none]
    | some p => cases tip <;> rfl
  | running rx => cases recv <;> rfl

theorem poll_isSome_of_shape {s : PrunerState}
    (h : (∃ p, s = .idle (some p)) ∨ (∃ rx, s = .running rx))
    (n : Nat) (env : PollEnv) : (poll (n + 1) s env).isSome = true := by
  obtain ⟨tip, fr, recv⟩ := env
  rcases h with ⟨p, rfl⟩ | ⟨rx, rfl⟩
  · cases tip <;> rfl
  · cases recv <;> rfl

theorem runTrace_nil (fuel : Nat) (s : PrunerState) : runTrace fuel s [] = some [] := rfl

theorem runTrace_cons_inv {fuel : Nat} {s : PrunerState} {e : PollEnv} {es : List PollEnv}
    {tr : List (Poll EnginePruneEvent × PrunerState)}
    (h : runTrace fuel s (e :: es) = some tr) :
    ∃ ev s' task tr', poll fuel s e = some (ev, s', task) ∧
      runTrace fuel s' es = some tr' ∧ tr = (ev, s') :: tr' := by
  cases hp : poll fuel s e with
  | none => rw [runTrace, hp] at h; exact absurd h (by simp)
  | some r =>
    obtain ⟨ev, s', task⟩ := r
    rw [runTrace, hp] at h
    simp only [Option.map_eq_some'] at h
    obtain ⟨tr', htr', heq⟩ := h
    exact ⟨ev, s', task, tr', rfl, htr', heq.symm⟩

/-- One poll step moves the observable idle flag exactly as the spec
automaton prescribes. -/
theorem poll_idleAfter {n : Nat} {s : PrunerState} {env : PollEnv}
    {ev : Poll EnginePruneEvent} {s' : PrunerState} {task : Option SpawnedTask}
    (h : poll (n + 1) s env = some (ev, s', task)) :
    s'.is_idle = idleAfterSpec s.is_idle ev := by
  rcases poll_shape h with
    ⟨p, t, hs, _, hev, hs'⟩ | ⟨p, hs, _, hev, hs'⟩ | ⟨rx, hs, _, hev, hs'⟩
    | ⟨rx, p, r, hs, _, hev, hs'⟩ | ⟨rx, hs, _, hev, hs'⟩ <;>
    subst hev <;> subst hs' <;> subst hs <;>
    simp [PrunerState.is_idle, idleAfterSpec]

theorem runTrace_flags {n : Nat} :
    ∀ (envs : List PollEnv) (s : PrunerState)
      (tr : List (Poll EnginePruneEvent × PrunerState)),
    runTrace (n + 1) s envs = some tr →
    tr.map (fun x => x.2.is_idle) = specFlags s.is_idle (tr.map Prod.fst) := by
  intro envs
  induction envs with
  | nil =>
    intro s tr h
    rw [runTrace_nil] at h
    cases h
    rfl
  | cons e es ih =>
    intro s tr h
    obtain ⟨ev, s', task, tr', hp, hrest, rfl⟩ := runTrace_cons_inv h
    have hflag := poll_idleAfter hp
    have hrec := ih s' tr' hrest
    simp only [List.map, specFlags]
    rw [← hflag, hrec]

theorem runTrace_noTwoStarted {n : Nat} :
    ∀ (envs : List PollEnv) (s : PrunerState) (b : Bool)
      (tr : List (Poll EnginePruneEvent × PrunerState)),
    runTrace (n + 1) s envs = some tr →
    (s.is_idle = true → b = false) →
    noTwoStartedAux b (tr.map Prod.fst) = true := by
  intro envs
  induction envs with
  | nil =>
    intro s b tr h _
    rw [runTrace_nil] at h
    cases h
    rfl
  | cons e es ih =>
    intro s b tr h hb
    obtain ⟨ev, s', task, tr', hp, hrest, rfl⟩ := runTrace_cons_inv h
    rcases poll_shape hp with
      ⟨p, t, hs, _, hev, hs'⟩ | ⟨p, hs, _, hev, hs'⟩ | ⟨rx, hs, _, hev, hs'⟩
      | ⟨rx, p, r, hs, _, hev, hs'⟩ | ⟨rx, hs, _, hev, hs'⟩
    · have hbf : b = false := hb (by rw [hs]; rfl)
      subst hev hbf
      simp only [List.map, noTwoStartedAux, isStartedEv, Bool.not_false, Bool.true_and]
      exact ih s' true tr' hrest (by rw [hs']; intro hc; exact absurd hc (by simp [PrunerState.is_idle]))
    · subst hev
      simp only [List.map, noTwoStartedAux, isStartedEv, isRunEndEv, if_false]
      exact ih s' b tr' hrest (by rw [hs']; exact hb)
    · subst hev
      simp only [List.map, noTwoStartedAux, isStartedEv, isRunEndEv, if_false]
      exact ih s' b tr' hrest
        (by rw [hs', hs]; intro hc; exact absurd hc (by simp [PrunerState.is_idle]))
    · subst hev
      simp only [List.map, noTwoStartedAux, isStartedEv, isRunEndEv, if_false, if_true]
      exact ih s' false tr' hrest (fun _ => rfl)
    · subst hev
      simp only [List.map, noTwoStartedAux, isStartedEv, isRunEndEv, if_false, if_true]
      exact ih s' false tr' hrest (fun _ => rfl)

theorem runTrace_noRefinish {n : Nat} :
    ∀ (envs : List PollEnv) (s : PrunerState) (seen : Bool)
      (tr : List (Poll EnginePruneEvent × PrunerState)),
    runTrace (n + 1) s envs = some tr →
    (s.is_idle = false → seen = false) →
    noRefinishAux seen (tr.map Prod.fst) = true := by
  intro envs
  induction envs with
  | nil =>
    intro s seen tr h _
    rw [runTrace_nil] at h
    cases h
    rfl
  | cons e es ih =>
    intro s seen tr h hseen
    obtain ⟨ev, s', task, tr', hp, hrest, rfl⟩ := runTrace_cons_inv h
    rcases poll_shape hp with
      ⟨p, t, hs, _, hev, hs'⟩ | ⟨p, hs, _, hev, hs'⟩ | ⟨rx, hs, _, hev, hs'⟩
      | ⟨rx, p, r, hs, _, hev, hs'⟩ | ⟨rx, hs, _, hev, hs'⟩
    · subst hev
      simp only [List.map, noRefinishAux]
      exact ih s' false tr' hrest (fun _ => rfl)
    · subst hev
      simp only [List.map, noRefinishAux]
      exact ih s' seen tr' hrest (by rw [hs']; exact hseen)
    · subst hev
      simp only [List.map, noRefinishAux]
      exact ih s' seen tr' hrest (by rw [hs']; exact hseen)
    · have hsf : seen = false := hseen (by rw [hs]; rfl)
      subst hev hsf
      simp only [List.map, noRefinishAux, Bool.not_false, Bool.true_and]
      exact ih s' true tr' hrest (by rw [hs']; intro hc; exact absurd hc (by simp [PrunerState.is_idle]))
    · subst hev
      simp only [List.map, noRefinishAux]
      exact ih s' seen tr' hrest (by rw [hs']; exact hseen)

theorem runTrace_allNoTip {n : Nat} (p : Pruner) :
    ∀ (envs : List PollEnv), (∀ e ∈ envs, e.tip = none) →
    runTrace (n + 1) (.idle (some p)) envs =
      some (envs.map fun _ => (.ready .notReady, .idle (some p))) := by
  intro envs
  induction envs with
  | nil => intro _; rfl
  | cons e es ih =>
    intro h
    have hstep : poll (n + 1) (.idle (some p)) e =
        some (.ready .notReady, .idle (some p), none) := by
      obtain ⟨tip, fr, recv⟩ := e
      have ht : tip = none := h _ (List.mem_cons_self _ _)
      subst ht
      exact poll_idle_noTip _ p fr recv
    rw [runTrace, hstep]
    show Option.map (fun tr => (Poll.ready EnginePruneEvent.notReady, PrunerState.idle (some p)) :: tr)
        (runTrace (n + 1) (PrunerState.idle (some p)) es) =
      some (List.map (fun x => (Poll.ready EnginePruneEvent.notReady, PrunerState.idle (some p))) (e :: es))
    rw [ih (fun x hx => h x (List.mem_cons_of_mem _ hx))]
    rfl

theorem runTrace_allClosed {n : Nat} (rx : Nat) :
    ∀ (envs : List PollEnv), (∀ e ∈ envs, e.recv = .closed) →
    runTrace (n + 1) (.running rx) envs =
      some (envs.map fun _ => (.ready .taskDropped, .running rx)) := by
  intro envs
  induction envs with
  | nil => intro _; rfl
  | cons e es ih =>
    intro h
    have hstep : poll (n + 1) (.running rx) e =
        some (.ready .taskDropped, .running rx, none) := by
      obtain ⟨tip, fr, recv⟩ := e
      have hr : recv = .closed := h _ (List.mem_cons_self _ _)
      subst hr
      exact poll_running_closed n rx tip fr
    rw [runTrace, hstep]
    show Option.map (fun tr => (Poll.ready EnginePruneEvent.taskDropped, PrunerState.running rx) :: tr)
        (runTrace (n + 1) (PrunerState.running rx) es) =
      some (List.map (fun x => (Poll.ready EnginePruneEvent.taskDropped, PrunerState.running rx)) (e :: es))
    rw [ih (fun x hx => h x (List.mem_cons_of_mem _ hx))]
    rfl

/-- Claim C1: ownership invariant — every controller state reachable
through the public operations (construction and `poll`; `is_idle` does
not mutate) is either `Idle` holding the pruning capability or `Running`
holding the completion receiver; an `Idle` state with an empty capability
slot is never observable at an operation boundary. -/
theorem prune_controller_ownership_invariant (s : PrunerState) (h : Reachable s) :
    ((∃ p, s = PrunerState.idle (some p)) ∨ (∃ rx, s = PrunerState.running rx))
    ∧ s ≠ PrunerState.idle none := by
  have hsh := reachable_shape h
  refine ⟨hsh, ?_⟩
  rcases hsh with ⟨p, rfl⟩ | ⟨rx, rfl⟩ <;> simp

theorem prune_controller_ownership_invariant_witness :
    ((∃ p, EnginePruneController.new ⟨0⟩ = PrunerState.idle (some p))
      ∨ (∃ rx, EnginePruneController.new ⟨0⟩ = PrunerState.running rx))
    ∧ EnginePruneController.new ⟨0⟩ ≠ PrunerState.idle none :=
  prune_controller_ownership_invariant _ (Reachable.init ⟨0⟩)

/-- Claim C2: trace alternation — from a freshly constructed controller,
`is_idle` is true after construction; along any trace of polls the
observed idle flag after each call follows the spec automaton (true after
`Finished`/`NotReady`, false after `Started` and until the run ends,
unchanged on `Pending`, false after `TaskDropped`); and no two `Started`
events occur without an intervening `Finished` or `TaskDropped`. -/
theorem prune_controller_trace_alternation (pruner : Pruner) (n : Nat)
    (envs : List PollEnv) (tr : List (Poll EnginePruneEvent × PrunerState))
    (h : runTrace (n + 1) (EnginePruneController.new pruner) envs = some tr) :
    (EnginePruneController.new pruner).is_idle = true
    ∧ tr.map (fun x => x.2.is_idle) = specFlags true (tr.map Prod.fst)
    ∧ noTwoStartedAux false (tr.map Prod.fst) = true :=
  ⟨rfl, runTrace_flags envs _ tr h,
   runTrace_noTwoStarted envs _ false tr h (fun _ => rfl)⟩

theorem prune_controller_trace_alternation_witness :
    (EnginePruneController.new ⟨0⟩).is_idle = true
    ∧ ([(Poll.ready EnginePruneEvent.notReady, PrunerState.idle (some ⟨0⟩))].map
        (fun x => x.2.is_idle))
      = specFlags true
          ([(Poll.ready EnginePruneEvent.notReady, PrunerState.idle (some ⟨0⟩))].map Prod.fst)
    ∧ noTwoStartedAux false
        ([(Poll.ready EnginePruneEvent.notReady, PrunerState.idle (some ⟨0⟩))].map Prod.fst)
      = true :=
  prune_controller_trace_alternation ⟨0⟩ 0 [⟨none, 1, RecvPoll.pending⟩] _ (by decide)

/-- Claim C3: start transition — a poll from `Idle(Some(pruner))` whose
tip check returns `Some(t)` returns `Ready(Started(t))`, moves the state
to `Running` holding the fresh channel's receiver, and hands the pruner
and `t` to the spawner as the critical blocking "pruner task" whose body
sends the `(pruner, result)` pair of `run_as_fut` over that channel. -/
theorem prune_controller_start_transition (n : Nat) (p : Pruner) (t : BlockNumber)
    (fr : Nat) (recv : RecvPoll)
    (runAsFut : Pruner → BlockNumber → Pruner × PrunerResult) :
    poll (n + 1) (PrunerState.idle (some p)) ⟨some t, fr, recv⟩ =
      some (Poll.ready (EnginePruneEvent.started t), PrunerState.running fr,
        some ⟨"pruner task", true, p, t, fr⟩)
    ∧ taskBody ⟨"pruner task", true, p, t, fr⟩ runAsFut = ⟨fr, runAsFut p t⟩ :=
  ⟨poll_idle_tip _ p t fr recv, rfl⟩

/-- Claim C4: not-ready transition — a poll from `Idle(Some(pruner))`
whose tip check returns `None` returns `Ready(NotReady)` with the same
pruner back in the idle slot; and if the tip check answers `None` on
every poll, every poll returns `Ready(NotReady)`, no `Started` is ever
emitted, and the controller stays `Idle` with that pruner. -/
theorem prune_controller_not_ready_transition (n : Nat) (p : Pruner) (fr : Nat)
    (recv : RecvPoll) (envs : List PollEnv) :
    poll (n + 1) (PrunerState.idle (some p)) ⟨none, fr, recv⟩ =
      some (Poll.ready EnginePruneEvent.notReady, PrunerState.idle (some p), none)
    ∧ ((∀ e ∈ envs, e.tip = none) →
        runTrace (n + 1) (PrunerState.idle (some p)) envs =
          some (envs.map fun _ =>
            (Poll.ready EnginePruneEvent.notReady, PrunerState.idle (some p)))) :=
  ⟨poll_idle_noTip _ p fr recv, runTrace_allNoTip p envs⟩

theorem prune_controller_not_ready_transition_witness :
    poll 1 (PrunerState.idle (some ⟨0⟩)) ⟨none, 2, RecvPoll.pending⟩ =
      some (Poll.ready EnginePruneEvent.notReady, PrunerState.idle (some ⟨0⟩), none)
    ∧ runTrace 1 (PrunerState.idle (some ⟨0⟩)) [⟨none, 3, RecvPoll.pending⟩] =
        some [(Poll.ready EnginePruneEvent.notReady, PrunerState.idle (some ⟨0⟩))] :=
  ⟨(prune_controller_not_ready_transition 0 ⟨0⟩ 2 RecvPoll.pending []).1,
   (prune_controller_not_ready_transition 0 ⟨0⟩ 2 RecvPoll.pending
     [⟨none, 3, RecvPoll.pending⟩]).2 (by decide)⟩

/-- Claim C5: completion transition — a poll from `Running` whose channel
has delivered `(pruner, result)` returns `Ready(Finished(result))` and
moves the state to `Idle(Some(pruner))`, for any `result` (`Ok` or a
domain error alike), so the controller is idle and reusable. -/
theorem prune_controller_completion_transition (n rx fr : Nat)
    (tip : Option BlockNumber) (p : Pruner) (r : PrunerResult) :
    poll (n + 1) (PrunerState.running rx) ⟨tip, fr, RecvPoll.ok p r⟩ =
      some (Poll.ready (EnginePruneEvent.finished r), PrunerState.idle (some p), none)
    ∧ (PrunerState.idle (some p)).is_idle = true :=
  ⟨poll_running_ok n rx tip fr p r, rfl⟩

/-- Claim C6: task-drop transition — a poll from `Running` whose channel
closed without a value returns `Ready(TaskDropped)` leaving the state
`Running` on the same receiver, which is not idle; and as long as the
receiver keeps reporting closed, every later poll leaves the state
`Running` on that receiver, so `is_idle` is false on every subsequent
observation and the controller never returns to `Idle`. -/
theorem prune_controller_task_dropped_transition (n rx fr : Nat)
    (tip : Option BlockNumber) (envs : List PollEnv) :
    poll (n + 1) (PrunerState.running rx) ⟨tip, fr, RecvPoll.closed⟩ =
      some (Poll.ready EnginePruneEvent.taskDropped, PrunerState.running rx, none)
    ∧ (PrunerState.running rx).is_idle = false
    ∧ ((∀ e ∈ envs, e.recv = RecvPoll.closed) →
        runTrace (n + 1) (PrunerState.running rx) envs =
          some (envs.map fun _ =>
            (Poll.ready EnginePruneEvent.taskDropped, PrunerState.running rx))) :=
  ⟨poll_running_closed n rx tip fr, rfl, runTrace_allClosed rx envs⟩

theorem prune_controller_task_dropped_transition_witness :
    poll 1 (PrunerState.running 4) ⟨none, 5, RecvPoll.closed⟩ =
      some (Poll.ready EnginePruneEvent.taskDropped, PrunerState.running 4, none)
    ∧ (PrunerState.running 4).is_idle = false
    ∧ runTrace 1 (PrunerState.running 4) [⟨none, 6, RecvPoll.closed⟩] =
        some [(Poll.ready EnginePruneEvent.taskDropped, PrunerState.running 4)] :=
  ⟨(prune_controller_task_dropped_transition 0 4 5 none []).1,
   (prune_controller_task_dropped_transition 0 4 5 none []).2.1,
   (prune_controller_task_dropped_transition 0 4 5 none
     [⟨none, 6, RecvPoll.closed⟩]).2.2 (by decide)⟩

/-- Claim C7: pending only while running — for every reachable state, a
poll returns `Pending` exactly when the state is `Running` and the
completion channel has not yet resolved; it is never `Pending` when an
event can be produced synchronously. -/
theorem prune_controller_pending_iff_running_unresolved (s : PrunerState)
    (h : Reachable s) (env : PollEnv) (n : Nat) :
    (∃ s' task, poll (n + 1) s env = some (Poll.pending, s', task))
      ↔ ((∃ rx, s = PrunerState.running rx) ∧ env.recv = RecvPoll.pending) := by
  constructor
  · rintro ⟨s', task, hp⟩
    rcases poll_shape hp with
      ⟨p, t, _, _, hev, _⟩ | ⟨p, _, _, hev, _⟩ | ⟨rx, hs, hrecv, _, _⟩
      | ⟨rx, p, r, _, _, hev, _⟩ | ⟨rx, _, _, hev, _⟩
    · exact absurd hev (by simp)
    · exact absurd hev (by simp)
    · exact ⟨⟨rx, hs⟩, hrecv⟩
    · exact absurd hev (by simp)
    · exact absurd hev (by simp)
  · rintro ⟨⟨rx, rfl⟩, hrecv⟩
    obtain ⟨tip, fr, recv⟩ := env
    have hr : recv = RecvPoll.pending := hrecv
    subst hr
    exact ⟨PrunerState.running rx, none, poll_running_pending n rx tip fr⟩

theorem prune_controller_pending_iff_running_unresolved_witness :
    (∃ s' task, poll 1 (EnginePruneController.new ⟨0⟩) ⟨none, 1, RecvPoll.pending⟩ =
        some (Poll.pending, s', task))
      ↔ ((∃ rx, EnginePruneController.new ⟨0⟩ = PrunerState.running rx)
          ∧ (PollEnv.mk none 1 RecvPoll.pending).recv = RecvPoll.pending) :=
  prune_controller_pending_iff_running_unresolved _ (Reachable.init ⟨0⟩)
    ⟨none, 1, RecvPoll.pending⟩ 0

/-- Claim C8: poll termination — from every reachable state, a poll call
returns (`Pending` or `Ready`) already with one unit of loop fuel, and
giving the internal retry loop any more fuel does not change the result:
the loop is bounded and never cycles indefinitely within a single call. -/
theorem prune_controller_poll_terminates (s : PrunerState) (h : Reachable s)
    (env : PollEnv) (n : Nat) :
    (poll 1 s env).isSome = true ∧ poll (n + 1) s env = poll 1 s env :=
  ⟨poll_isSome_of_shape (reachable_shape h) 0 env, poll_fuel_irrel n 0 s env⟩

theorem prune_controller_poll_terminates_witness :
    (poll 1 (EnginePruneController.new ⟨0⟩) ⟨none, 1, RecvPoll.pending⟩).isSome = true
    ∧ poll 4 (EnginePruneController.new ⟨0⟩) ⟨none, 1, RecvPoll.pending⟩ =
        poll 1 (EnginePruneController.new ⟨0⟩) ⟨none, 1, RecvPoll.pending⟩ :=
  prune_controller_poll_terminates _ (Reachable.init ⟨0⟩) ⟨none, 1, RecvPoll.pending⟩ 3

/-- Claim C9 counterexample: a single failed run is reported more than
once.  From construction, a run starts (`Started(5)`), its task is then
dropped (channel closed), and the two following polls each emit
`TaskDropped`: the trace contains one `Started` but two `TaskDropped`
events, so the controller does re-emit the same failure on a subsequent
poll, refuting the claim as stated. -/
theorem prune_failure_reported_once_counterexample :
    runTrace 1 (EnginePruneController.new ⟨0⟩)
        [⟨some 5, 7, RecvPoll.pending⟩, ⟨none, 8, RecvPoll.closed⟩,
         ⟨none, 9, RecvPoll.closed⟩]
      = some [(Poll.ready (EnginePruneEvent.started 5), PrunerState.running 7),
              (Poll.ready EnginePruneEvent.taskDropped, PrunerState.running 7),
              (Poll.ready EnginePruneEvent.taskDropped, PrunerState.running 7)]
    ∧ [Poll.ready (EnginePruneEvent.started 5),
        Poll.ready EnginePruneEvent.taskDropped,
        Poll.ready EnginePruneEvent.taskDropped].count
          (Poll.ready EnginePruneEvent.taskDropped) = 2 := by
  decide

/-- Claim C9 (amended): a `Finished` outcome (in particular a
`Finished(Err)`) is reported once per run — no second `Finished` occurs
without an intervening `Started` — and the controller never restarts or
retries a run on its own in response to a failure: after `TaskDropped`
the state stays `Running` against the closed receiver and no run ever
starts.  `TaskDropped` itself, however, is re-emitted by every subsequent
poll while the receiver stays closed, not reported exactly once. -/
theorem prune_failure_reporting_amended :
    (∀ (n : Nat) (pruner : Pruner) (envs : List PollEnv)
        (tr : List (Poll EnginePruneEvent × PrunerState)),
      runTrace (n + 1) (EnginePruneController.new pruner) envs = some tr →
      noRefinishAux false (tr.map Prod.fst) = true)
    ∧ (∀ (n rx : Nat) (envs : List PollEnv),
        (∀ e ∈ envs, e.recv = RecvPoll.closed) →
        runTrace (n + 1) (PrunerState.running rx) envs =
          some (envs.map fun _ =>
            (Poll.ready EnginePruneEvent.taskDropped, PrunerState.running rx))) :=
  ⟨fun _ _ envs tr h => runTrace_noRefinish envs _ false tr h (fun _ => rfl),
   fun _ rx envs h => runTrace_allClosed rx envs h⟩

theorem prune_failure_reporting_amended_witness :
    noRefinishAux false
        ([(Poll.ready EnginePruneEvent.notReady, PrunerState.idle (some ⟨0⟩))].map Prod.fst)
      = true
    ∧ runTrace 1 (PrunerState.running 2) [⟨none, 3, RecvPoll.closed⟩] =
        some [(Poll.ready EnginePruneEvent.taskDropped, PrunerState.running 2)] :=
  ⟨prune_failure_reporting_amended.1 0 ⟨0⟩ [⟨none, 1, RecvPoll.pending⟩] _ (by decide),
   prune_failure_reporting_amended.2 0 2 [⟨none, 3, RecvPoll.closed⟩] (by decide)⟩

/-- Claim C10: task-drop frame — on the task-dropped branch a poll
performs no state write: the state remains `Running` on the very same
(closed) receiver; and from a `Running` state only the `Finished` branch
(a delivered `(pruner, result)`) moves the state back to `Idle`. -/
theorem prune_task_dropped_frame :
    (∀ (n rx fr : Nat) (tip : Option BlockNumber),
      poll (n + 1) (PrunerState.running rx) ⟨tip, fr, RecvPoll.closed⟩ =
        some (Poll.ready EnginePruneEvent.taskDropped, PrunerState.running rx, none))
    ∧ (∀ (n rx : Nat) (env : PollEnv) (ev : Poll EnginePruneEvent)
        (s' : PrunerState) (task : Option SpawnedTask),
        poll (n + 1) (PrunerState.running rx) env = some (ev, s', task) →
        s'.is_idle = true →
        ∃ p r, env.recv = RecvPoll.ok p r
          ∧ ev = Poll.ready (EnginePruneEvent.finished r)
          ∧ s' = PrunerState.idle (some p)) := by
  constructor
  · intro n rx fr tip
    exact poll_running_closed n rx tip fr
  · intro n rx env ev s' task hp hidle
    rcases poll_shape hp with
      ⟨p, t, hs, _, _, _⟩ | ⟨p, hs, _, _, _⟩ | ⟨rx', hs, _, _, hs'⟩
      | ⟨rx', p, r, _, hrecv, hev, hs'⟩ | ⟨rx', hs, _, _, hs'⟩
    · exact absurd hs (by simp)
    · exact absurd hs (by simp)
    · rw [hs'] at hidle
      exact absurd hidle (by simp [PrunerState.is_idle])
    · exact ⟨p, r, hrecv, hev, hs'⟩
    · rw [hs'] at hidle
      exact absurd hidle (by simp [PrunerState.is_idle])

theorem prune_task_dropped_frame_witness :
    ∃ p r, (PollEnv.mk none 0 (RecvPoll.ok ⟨1⟩ PrunerResult.ok)).recv = RecvPoll.ok p r
      ∧ (Poll.ready (EnginePruneEvent.finished PrunerResult.ok) : Poll EnginePruneEvent) =
          Poll.ready (EnginePruneEvent.finished r)
      ∧ PrunerState.idle (some ⟨1⟩) = PrunerState.idle (some p) :=
  prune_task_dropped_frame.2 0 0 ⟨none, 0, RecvPoll.ok ⟨1⟩ PrunerResult.ok⟩
    (Poll.ready (EnginePruneEvent.finished PrunerResult.ok)) (PrunerState.idle (some ⟨1⟩))
    none (by decide) (by decide)

end EnginePrune
